import Mathlib

/-!
Verification of the Hifi-Bridge/docs homepage animation script.

The repository consists of one combined script (the typewriter effect plus
the flowing-light canvas effect, with boot/retry harness and mutation
observers) and an earlier standalone copy of the flowing-light effect
(`flowing-light.js`) whose animation logic is identical.

This file shallowly embeds the script's state and operations:

* the typewriter state machine (`TWState`, `twStep`) with an explicit count
  of live `setInterval` timers and of pending pause `setTimeout` callbacks,
  so that timer lifecycle properties can be stated;
* the flowing-light `resize` grid generation (`resize`, `allDots`);
* the retry logic of `startAnimation` (`flStep`, `flIter`) and of
  `startTypewriterAnimation` (the `startNotFound` event);
* the per-run flowing-light listener/timer bookkeeping (`FLRun`) and its
  `cleanup` function;
* the per-dot intensity/opacity computation of `tick` over the reals;
* the mutation-observer callbacks for SPA navigation.
-/

namespace Hifi

/-! ### Typewriter configuration (`TYPEWRITER_CONFIG`) -/

/-- `TYPEWRITER_CONFIG.text`, the target string "HIFI DOCS". -/
def targetText : List Char := "HIFI DOCS".toList

/-- `TYPEWRITER_CONFIG.typeSpeed` (ms between typed characters). -/
def typeSpeed : Nat := 150

/-- `TYPEWRITER_CONFIG.pauseDuration` (ms pause after completing the text). -/
def pauseDuration : Nat := 5000

/-- `TYPEWRITER_CONFIG.deleteSpeed` (ms between character deletions). -/
def deleteSpeed : Nat := 50

/-- `TYPEWRITER_CONFIG.deletePause` (ms pause before the next cycle). -/
def deletePause : Nat := 500

/-- `TYPEWRITER_CONFIG.loop`. -/
def loopFlag : Bool := true

/-- Delay of the `startTypewriterAnimation` element-missing retry (ms). -/
def twRetryDelay : Nat := 100

/-! ### Typewriter state machine

The script's module-level variables, plus explicit bookkeeping of the
event-loop resources they control: `liveIntervals` counts the interval
timers currently alive (the variable `typewriterInterval` stores at most
one handle, but an interval whose handle is overwritten keeps firing),
`pendingPauseType` / `pendingPauseDelete` count the pause `setTimeout`
callbacks scheduled by `typewriterTick` and not yet fired,
`displayed` is the text content of the `.hero-title` element, and
`retriesScheduled` counts the element-missing retries scheduled so far by
`startTypewriterAnimation`. -/

structure TWState where
  liveIntervals : Nat
  handle : Bool
  elementFound : Bool
  isTyping : Bool
  isDeleting : Bool
  currentText : List Char
  currentIndex : Nat
  pendingPauseType : Nat
  pendingPauseDelete : Nat
  displayed : List Char
  retriesScheduled : Nat
deriving DecidableEq

/-- The initial state of the module-level variables. -/
def twInit : TWState :=
  { liveIntervals := 0, handle := false, elementFound := false
    isTyping := false, isDeleting := false
    currentText := [], currentIndex := 0
    pendingPauseType := 0, pendingPauseDelete := 0
    displayed := [], retriesScheduled := 0 }

/-- Events of the typewriter state machine: the two outcomes of a
`startTypewriterAnimation` call (element found / element missing), a firing
of `typewriterTick` from a live interval, firings of the two pause
`setTimeout` callbacks, and a `stopTypewriterAnimation` call. -/
inductive TWEvent where
  | startFound
  | startNotFound
  | tick
  | pauseTypeFire
  | pauseDeleteFire
  | stop
deriving DecidableEq

/-- `clearInterval(typewriterInterval); typewriterInterval = null`:
if the stored handle is non-null it names a live interval, which dies. -/
def clearHandle (s : TWState) : TWState :=
  if s.handle then { s with liveIntervals := s.liveIntervals - 1, handle := false }
  else s

/-- One step of the typewriter machine, transcribed from
`startTypewriterAnimation`, `typewriterTick` and `stopTypewriterAnimation`. -/
def twStep (s : TWState) : TWEvent → TWState
  | .startFound =>
    -- typewriterElement = document.querySelector(".hero-title") succeeds
    let s := { s with elementFound := true }
    -- if (typewriterInterval) return;
    if s.handle then s
    else
      -- reset state and setInterval(typewriterTick, typeSpeed)
      { s with currentText := [], currentIndex := 0
               isTyping := true, isDeleting := false
               liveIntervals := s.liveIntervals + 1, handle := true }
  | .startNotFound =>
    -- element missing: setTimeout(startTypewriterAnimation, 100), unconditionally
    { s with elementFound := false, retriesScheduled := s.retriesScheduled + 1 }
  | .tick =>
    if s.isTyping then
      if s.currentIndex < targetText.length then
        -- currentText += text[currentIndex]; currentIndex++; element.textContent = currentText
        let t := s.currentText ++ [targetText.getD s.currentIndex ' ']
        { s with currentText := t, currentIndex := s.currentIndex + 1
                 displayed := if s.elementFound then t else s.displayed }
      else
        -- isTyping = false; clearInterval; setTimeout(pause-after-type, pauseDuration)
        let s := clearHandle { s with isTyping := false }
        { s with pendingPauseType := s.pendingPauseType + 1 }
    else if s.isDeleting then
      if 0 < s.currentText.length then
        -- currentText = currentText.slice(0, -1); element.textContent = currentText
        let t := s.currentText.dropLast
        { s with currentText := t
                 displayed := if s.elementFound then t else s.displayed }
      else
        -- isDeleting = false; clearInterval; setTimeout(pause-after-delete, deletePause)
        let s := clearHandle { s with isDeleting := false }
        { s with pendingPauseDelete := s.pendingPauseDelete + 1 }
    else s
  | .pauseTypeFire =>
    -- isDeleting = true; typewriterInterval = setInterval(typewriterTick, deleteSpeed)
    { s with pendingPauseType := s.pendingPauseType - 1, isDeleting := true
             liveIntervals := s.liveIntervals + 1, handle := true }
  | .pauseDeleteFire =>
    let s := { s with pendingPauseDelete := s.pendingPauseDelete - 1 }
    if loopFlag then
      -- currentIndex = 0; isTyping = true; typewriterInterval = setInterval(...)
      { s with currentIndex := 0, isTyping := true
               liveIntervals := s.liveIntervals + 1, handle := true }
    else s
  | .stop =>
    -- if (typewriterInterval) clearInterval; if (typewriterElement) textContent = text
    let s := clearHandle s
    { s with displayed := if s.elementFound then targetText else s.displayed }

/-- Whether an event can fire in a state: a tick needs a live interval, a
pause callback needs a pending timeout; calls can always happen. -/
def twEnabled (s : TWState) : TWEvent → Bool
  | .tick => decide (0 < s.liveIntervals)
  | .pauseTypeFire => decide (0 < s.pendingPauseType)
  | .pauseDeleteFire => decide (0 < s.pendingPauseDelete)
  | _ => true

/-- Run a sequence of events from a state, checking enabledness. -/
def twRun : TWState → List TWEvent → Option TWState
  | s, [] => some s
  | s, e :: es => if twEnabled s e then twRun (twStep s e) es else none

/-- States reachable from `twInit` by enabled events satisfying the
extra admission predicate `ok`. -/
inductive TWReach (ok : TWState → TWEvent → Bool) : TWState → Prop where
  | init : TWReach ok twInit
  | step {s : TWState} (e : TWEvent) :
      TWReach ok s → ok s e = true → twEnabled s e = true →
      TWReach ok (twStep s e)

/-- The event alphabet of claims C1 and C9: `startTypewriterAnimation`
calls and `typewriterTick` firings. -/
def claimOk (_ : TWState) : TWEvent → Bool
  | .startFound => true
  | .startNotFound => true
  | .tick => true
  | _ => false

/-- All events admitted. -/
def fullOk (_ : TWState) (_ : TWEvent) : Bool := true

/-- Admission for the amended C2: `startTypewriterAnimation` is only called
when no pause timeout is pending. -/
def safeOk (s : TWState) : TWEvent → Bool
  | .startFound => decide (s.pendingPauseType = 0) && decide (s.pendingPauseDelete = 0)
  | _ => true

/-! ### Flowing-light grid (`resize`) -/

/-- `FLOWING_LIGHT_CONFIG.GRID_SIZE`: logical spacing between dots (px). -/
def GRID_SIZE : Nat := 25

/-- `FLOWING_LIGHT_CONFIG.MAX_RETRIES` (= `MAX_RETRIES` in flowing-light.js). -/
def MAX_RETRIES : Nat := 20

/-- The inner loop of `resize`: one row of the flat dots array,
`for (c = 0; c < cols; c++) { dots[i++] = c*GRID_SIZE; dots[i++] = r*GRID_SIZE }`. -/
def rowDots (r : Nat) : Nat → List Nat
  | 0 => []
  | c + 1 => rowDots r c ++ [c * GRID_SIZE, r * GRID_SIZE]

/-- The nested loops of `resize` filling the flat dots array row by row. -/
def allDots (cols : Nat) : Nat → List Nat
  | 0 => []
  | r + 1 => allDots cols r ++ rowDots r cols

/-- The grid-related state written by `resize`. -/
structure FLView where
  width : Nat
  height : Nat
  cols : Nat
  rows : Nat
  dots : List Nat
deriving DecidableEq

/-- `resize`, given the container's bounding-rect dimensions after the
`| 0` truncation: clamps width/height to at least 1, computes
`cols = Math.ceil(width / GRID_SIZE)`, `rows = Math.ceil(height / GRID_SIZE)`
(ceiling division, written `(a + GRID_SIZE - 1) / GRID_SIZE` on naturals)
and regenerates the flat dots array. -/
def resize (rectW rectH : Nat) : FLView :=
  let width := max 1 rectW
  let height := max 1 rectH
  let cols := (width + GRID_SIZE - 1) / GRID_SIZE
  let rows := (height + GRID_SIZE - 1) / GRID_SIZE
  { width := width, height := height, cols := cols, rows := rows
    dots := allDots cols rows }

/-! ### Retry logic of `startAnimation` -/

/-- Effect of one `startAnimation` call that finds the container missing on
the module-level `retryCount`: increment only while below `MAX_RETRIES`. -/
def flStep (r : Nat) : Nat := if r < MAX_RETRIES then r + 1 else r

/-- Whether a container-missing `startAnimation` call at retry count `r`
schedules another attempt. -/
def flRetrySched (r : Nat) : Bool := decide (r < MAX_RETRIES)

/-- The backoff delay `Math.min(50 * retryCount, 500)` used when a retry is
scheduled (computed after the increment). -/
def flDelay (r : Nat) : Nat := min (50 * (r + 1)) 500

/-- `retryCount` after `n` consecutive container-missing `startAnimation`
calls, starting from the initial value 0. -/
def flIter : Nat → Nat
  | 0 => 0
  | n + 1 => flStep (flIter n)

/-- The typewriter state after `n` consecutive element-missing
`startTypewriterAnimation` calls from the initial state. -/
def twNotFoundIter : Nat → TWState
  | 0 => twInit
  | n + 1 => twStep (twNotFoundIter n) .startNotFound

/-! ### Flowing-light per-run listeners and timers -/

/-- The event-loop resources of one flowing-light run: the `running` flag,
whether an animation frame is scheduled (`rafId`), whether the window
`resize` and container `mousemove` listeners are attached, whether a
debounced-resize `setTimeout` is pending (`resizeTimer`), whether the
canvas is attached, and whether `_flowingLightCleanup` is registered. -/
structure FLRun where
  running : Bool
  rafPending : Bool
  resizeListener : Bool
  mouseListener : Bool
  debouncePending : Bool
  canvasAttached : Bool
  cleanupRegistered : Bool
deriving DecidableEq

/-- The run state right after a successful `startAnimation`: listeners
attached, first frame requested, cleanup registered, no debounce pending. -/
def flRunInit : FLRun :=
  { running := true, rafPending := true, resizeListener := true
    mouseListener := true, debouncePending := false
    canvasAttached := true, cleanupRegistered := true }

/-- The `cleanup` function stored in `container._flowingLightCleanup`:
stops the loop, cancels the animation frame, detaches both listeners,
removes the canvas and unregisters itself.  It does not touch the
debounced-resize timeout. -/
def flCleanup (s : FLRun) : FLRun :=
  { s with running := false, rafPending := false
           resizeListener := false, mouseListener := false
           canvasAttached := false, cleanupRegistered := false }

/-- Events on a flowing-light run. -/
inductive FLEvent where
  | resizeEvt
  | debounceFire
  | frameFire
  | cleanupCall
deriving DecidableEq

/-- One step of a flowing-light run: a window resize event re-arms the
debounce timeout (`clearTimeout` then `setTimeout`); the debounce callback
cancels the frame, resizes, and re-requests a frame if still running; a
frame firing runs `tick`, which returns at once when not running and
otherwise re-requests itself; a cleanup call runs `flCleanup`. -/
def flStepRun (s : FLRun) : FLEvent → FLRun
  | .resizeEvt => { s with debouncePending := true }
  | .debounceFire =>
    if s.debouncePending then
      let s := { s with debouncePending := false, rafPending := false }
      if s.running then { s with rafPending := true } else s
    else s
  | .frameFire =>
    if s.rafPending then
      if s.running then s else { s with rafPending := false }
    else s
  | .cleanupCall => flCleanup s

/-- Run a sequence of flowing-light events. -/
def flRunSeq (s : FLRun) (es : List FLEvent) : FLRun :=
  es.foldl flStepRun s

/-! ### Per-dot intensity and opacity computed in `tick`

The per-dot arithmetic of `tick` is transcribed over the real numbers
(JavaScript numbers are modelled as exact reals): three phase-shifted sine
waves of elapsed time and distance to the cursor, their mean, a clamped
proximity boost, and the opacity mapping. -/

/-- `FLOWING_LIGHT_CONFIG.OPACITY_BASE`. -/
noncomputable def OPACITY_BASE : ℝ := 0.02

/-- `FLOWING_LIGHT_CONFIG.OPACITY_SCALE`. -/
noncomputable def OPACITY_SCALE : ℝ := 0.5

/-- `FLOWING_LIGHT_CONFIG.PROX_RADIUS` (px for the proximity boost). -/
noncomputable def PROX_RADIUS : ℝ := 150

/-- `const proxInv = 1 / PROX_RADIUS`. -/
noncomputable def proxInv : ℝ := 1 / PROX_RADIUS

/-- `Math.hypot(dx, dy)`, the distance from the dot to the cursor. -/
noncomputable def cursorDist (dx dy : ℝ) : ℝ := Real.sqrt (dx ^ 2 + dy ^ 2)

/-- `w1 = Math.sin(time * 0.8 - dist * 0.005) * 0.5 + 0.5`. -/
noncomputable def wave1 (time dist : ℝ) : ℝ :=
  Real.sin (time * 0.8 - dist * 0.005) * 0.5 + 0.5

/-- `w2 = Math.sin(time * 0.6 - dist * 0.004 + Math.PI / 3) * 0.5 + 0.5`. -/
noncomputable def wave2 (time dist : ℝ) : ℝ :=
  Real.sin (time * 0.6 - dist * 0.004 + Real.pi / 3) * 0.5 + 0.5

/-- `w3 = Math.sin(time * 0.7 - dist * 0.006 + Math.PI / 6) * 0.5 + 0.5`. -/
noncomputable def wave3 (time dist : ℝ) : ℝ :=
  Real.sin (time * 0.7 - dist * 0.006 + Real.pi / 6) * 0.5 + 0.5

/-- `intensity = (w1 + w2 + w3) / 3`. -/
noncomputable def intensity (time dist : ℝ) : ℝ :=
  (wave1 time dist + wave2 time dist + wave3 time dist) / 3

/-- `proxBoost = Math.max(0, 1 - dist * proxInv) * 0.4`. -/
noncomputable def proxBoost (dist : ℝ) : ℝ :=
  max 0 (1 - dist * proxInv) * 0.4

/-- `finalIntensity = Math.min(1, intensity + proxBoost)`. -/
noncomputable def finalIntensity (time dist : ℝ) : ℝ :=
  min 1 (intensity time dist + proxBoost dist)

/-- `a = OPACITY_BASE + finalIntensity * OPACITY_SCALE`, the painted opacity. -/
noncomputable def dotOpacity (time dist : ℝ) : ℝ :=
  OPACITY_BASE + finalIntensity time dist * OPACITY_SCALE

/-! ### Mutation observers (SPA support) -/

/-- A DOM node as seen by the container observer: whether it is an element
node, its `id`, and whether `node.querySelector("#flowing-light-container")`
finds the container inside it. -/
structure DomNode where
  isElement : Bool
  nodeId : String
  containsContainer : Bool
deriving DecidableEq

/-- One mutation record: whether its type is `"childList"`, and its added
nodes. -/
structure Mutation where
  typeChildList : Bool
  addedNodes : List DomNode
deriving DecidableEq

/-- The per-node test of the container observer: an element node whose id
is `flowing-light-container` or that contains the container. -/
def nodeMatches (n : DomNode) : Bool :=
  n.isElement && (n.nodeId == "flowing-light-container" || n.containsContainer)

/-- Whether one mutation record triggers the observer: a `childList`
mutation with a matching added node. -/
def mutationTriggers (m : Mutation) : Bool :=
  m.typeChildList && m.addedNodes.any nodeMatches

/-- What a callback invocation starts. -/
structure ObserverEffect where
  startAnimationInvoked : Bool
  startTypewriterInvoked : Bool
deriving DecidableEq

/-- The container observer callback of the combined script: scans the
mutation records and, on the first matching added node, calls
`startAnimation()` and `startTypewriterAnimation()` and returns. -/
def containerObserverRun (ms : List Mutation) : ObserverEffect :=
  let t := ms.any mutationTriggers
  { startAnimationInvoked := t, startTypewriterInvoked := t }

/-- The URL observer callback of the combined script: when
`location.href` differs from `lastUrl`, records the new URL and calls
both start functions.  Returns the new `lastUrl` and the effect. -/
def urlObserverRun (lastUrl url : String) : String × ObserverEffect :=
  if url ≠ lastUrl then
    (url, { startAnimationInvoked := true, startTypewriterInvoked := true })
  else
    (lastUrl, { startAnimationInvoked := false, startTypewriterInvoked := false })

/-! ### Helper lemmas on the grid -/

theorem rowDots_length (r c : Nat) : (rowDots r c).length = 2 * c := by
  induction c with
  | zero => rfl
  | succ n ih => simp [rowDots, ih]; omega

theorem allDots_length (cols rows : Nat) :
    (allDots cols rows).length = 2 * (cols * rows) := by
  induction rows with
  | zero => rfl
  | succ n ih =>
    simp [allDots, ih, rowDots_length]
    ring

theorem ceil_div25 (a : Nat) : Nat.ceil ((a : ℚ) / 25) = (a + 24) / 25 := by
  apply le_antisymm
  · rw [Nat.ceil_le, div_le_iff (by norm_num : (0:ℚ) < 25)]
    have h : a ≤ ((a + 24) / 25) * 25 := by omega
    exact_mod_cast h
  · rcases Nat.eq_zero_or_pos ((a + 24) / 25) with h | h
    · simp [h]
    · have h1 : (a + 24) / 25 - 1 < Nat.ceil ((a : ℚ) / 25) := by
        rw [Nat.lt_ceil, lt_div_iff (by norm_num : (0:ℚ) < 25)]
        have h2 : ((a + 24) / 25 - 1) * 25 < a := by omega
        exact_mod_cast h2
      omega

theorem rowDots_get (r cols c : Nat) (hc : c < cols) :
    (rowDots r cols).get? (2 * c) = some (c * GRID_SIZE) ∧
    (rowDots r cols).get? (2 * c + 1) = some (r * GRID_SIZE) := by
  induction cols with
  | zero => omega
  | succ n ih =>
    rcases Nat.lt_or_ge c n with h | h
    · have hlen1 : 2 * c < (rowDots r n).length := by rw [rowDots_length]; omega
      have hlen2 : 2 * c + 1 < (rowDots r n).length := by rw [rowDots_length]; omega
      exact ⟨by rw [rowDots, List.get?_append hlen1]; exact (ih h).1,
             by rw [rowDots, List.get?_append hlen2]; exact (ih h).2⟩
    · have hcn : c = n := by omega
      subst hcn
      have hlen : (rowDots r c).length ≤ 2 * c := by rw [rowDots_length]
      constructor
      · rw [rowDots, List.get?_append_right hlen, rowDots_length]
        simp
      · rw [rowDots, List.get?_append_right (by omega), rowDots_length]
        simp

theorem allDots_get (cols rows r c : Nat) (hr : r < rows) (hc : c < cols) :
    (allDots cols rows).get? (2 * (r * cols + c)) = some (c * GRID_SIZE) ∧
    (allDots cols rows).get? (2 * (r * cols + c) + 1) = some (r * GRID_SIZE) := by
  induction rows with
  | zero => omega
  | succ n ih =>
    have hcomm : cols * r = r * cols := Nat.mul_comm cols r
    rcases Nat.lt_or_ge r n with h | h
    · have hidx : r * cols + c < cols * n := by
        calc r * cols + c < r * cols + cols := by omega
          _ = (r + 1) * cols := by ring
          _ ≤ n * cols := Nat.mul_le_mul_right _ (by omega)
          _ = cols * n := Nat.mul_comm n cols
      have hlen1 : 2 * (r * cols + c) < (allDots cols n).length := by
        rw [allDots_length]; omega
      have hlen2 : 2 * (r * cols + c) + 1 < (allDots cols n).length := by
        rw [allDots_length]; omega
      exact ⟨by rw [allDots, List.get?_append hlen1]; exact (ih h).1,
             by rw [allDots, List.get?_append hlen2]; exact (ih h).2⟩
    · have hrn : r = n := by omega
      subst hrn
      have hlen : (allDots cols r).length ≤ 2 * (r * cols + c) := by
        rw [allDots_length]; omega
      have hsub1 : 2 * (r * cols + c) - (allDots cols r).length = 2 * c := by
        rw [allDots_length]; omega
      have hsub2 : 2 * (r * cols + c) + 1 - (allDots cols r).length = 2 * c + 1 := by
        rw [allDots_length]; omega
      constructor
      · rw [allDots, List.get?_append_right hlen, hsub1]
        exact (rowDots_get r cols c hc).1
      · rw [allDots, List.get?_append_right (by omega), hsub2]
        exact (rowDots_get r cols c hc).2

/-- C5: after every call to `resize`, the number of grid points (the dots
array length divided by 2) equals `ceil(width / GRID_SIZE) * ceil(height /
GRID_SIZE)`, where width and height are the clamped pixel dimensions
`max 1 rectW` and `max 1 rectH`; equivalently it equals `cols * rows`. -/
theorem C5_grid_point_count (rectW rectH : Nat) :
    (resize rectW rectH).dots.length / 2
      = Nat.ceil (((max 1 rectW : ℕ) : ℚ) / ((GRID_SIZE : ℕ) : ℚ))
        * Nat.ceil (((max 1 rectH : ℕ) : ℚ) / ((GRID_SIZE : ℕ) : ℚ))
    ∧ (resize rectW rectH).dots.length / 2
      = (resize rectW rectH).cols * (resize rectW rectH).rows := by
  have hlen : (resize rectW rectH).dots.length
      = 2 * (((max 1 rectW + GRID_SIZE - 1) / GRID_SIZE)
             * ((max 1 rectH + GRID_SIZE - 1) / GRID_SIZE)) := by
    simp [resize, allDots_length]
  have hdiv : (resize rectW rectH).dots.length / 2
      = ((max 1 rectW + GRID_SIZE - 1) / GRID_SIZE)
        * ((max 1 rectH + GRID_SIZE - 1) / GRID_SIZE) := by
    rw [hlen]; omega
  constructor
  · rw [hdiv]
    have hw := ceil_div25 (max 1 rectW)
    have hh := ceil_div25 (max 1 rectH)
    have h24 : ∀ x : ℕ, x + GRID_SIZE - 1 = x + 24 := by
      intro x; simp [GRID_SIZE]
    have hcast : ((GRID_SIZE : ℕ) : ℚ) = 25 := by norm_num [GRID_SIZE]
    rw [h24, h24, hcast, hw, hh]
    simp [GRID_SIZE]
  · rw [hdiv]; simp [resize]

/-- C7: after every call to `resize`, the dot stored at flat index
`2 * (r * cols + c)` has coordinates `(c * GRID_SIZE, r * GRID_SIZE)` for
every row `r < rows` and column `c < cols`, and the lattice spans the full
clamped width and height (`width ≤ cols * GRID_SIZE`,
`height ≤ rows * GRID_SIZE`). -/
theorem C7_grid_lattice (rectW rectH r c : Nat)
    (hr : r < (resize rectW rectH).rows) (hc : c < (resize rectW rectH).cols) :
    (resize rectW rectH).dots.get? (2 * (r * (resize rectW rectH).cols + c))
      = some (c * GRID_SIZE)
    ∧ (resize rectW rectH).dots.get? (2 * (r * (resize rectW rectH).cols + c) + 1)
      = some (r * GRID_SIZE)
    ∧ (resize rectW rectH).width ≤ (resize rectW rectH).cols * GRID_SIZE
    ∧ (resize rectW rectH).height ≤ (resize rectW rectH).rows * GRID_SIZE := by
  simp only [resize] at hr hc ⊢
  refine ⟨(allDots_get _ _ _ _ hr hc).1, (allDots_get _ _ _ _ hr hc).2, ?_, ?_⟩
  · simp only [GRID_SIZE] at *; omega
  · simp only [GRID_SIZE] at *; omega

/-- Witness for C7 at a concrete viewport: a 30 by 10 rect gives a clamped
30 by 10 container, 2 columns and 1 row; the dot at row 0, column 1 sits at
x = 25, y = 0. -/
theorem C7_grid_lattice_witness :
    0 < (resize 30 10).rows ∧ 1 < (resize 30 10).cols
    ∧ ((resize 30 10).dots.get? (2 * (0 * (resize 30 10).cols + 1))
        = some (1 * GRID_SIZE)
      ∧ (resize 30 10).dots.get? (2 * (0 * (resize 30 10).cols + 1) + 1)
        = some (0 * GRID_SIZE)
      ∧ (resize 30 10).width ≤ (resize 30 10).cols * GRID_SIZE
      ∧ (resize 30 10).height ≤ (resize 30 10).rows * GRID_SIZE) :=
  ⟨by decide, by decide, C7_grid_lattice 30 10 0 1 (by decide) (by decide)⟩

/-! ### Retry chains (claim C3) -/

theorem flIter_eq_min (n : Nat) : flIter n = min n MAX_RETRIES := by
  induction n with
  | zero => rfl
  | succ m ih =>
    rw [flIter, ih, flStep]
    simp only [MAX_RETRIES]
    split_ifs <;> omega

/-- A run of `twRun` ending in `some` state only visits enabled events, so
its final state is reachable. -/
theorem twRun_reach (es : List TWEvent) {s0 s : TWState}
    (h0 : TWReach fullOk s0) (h : twRun s0 es = some s) : TWReach fullOk s := by
  induction es generalizing s0 with
  | nil =>
    rw [twRun] at h
    cases h
    exact h0
  | cons e es ih =>
    rw [twRun] at h
    by_cases he : twEnabled s0 e = true
    · rw [if_pos he] at h
      exact ih (TWReach.step e h0 rfl he) h
    · rw [if_neg he] at h
      cases h

theorem twNotFoundIter_retries (n : Nat) :
    (twNotFoundIter n).retriesScheduled = n := by
  induction n with
  | zero => rfl
  | succ m ih => rw [twNotFoundIter, twStep]; simp [ih]

/-- C3 counterexample: the element-missing retry chain of
`startTypewriterAnimation` is not bounded by the script's fixed retry limit
`MAX_RETRIES = 20`: after 21 consecutive element-missing calls, 21 retries
have been scheduled, and the next missing-element call schedules yet
another one. -/
theorem C3_counterexample_typewriter_retry_unbounded :
    MAX_RETRIES < (twNotFoundIter 21).retriesScheduled
    ∧ (twStep (twNotFoundIter 21) .startNotFound).retriesScheduled = 22 := by
  decide

/-- C3 amended: the flowing-light `startAnimation` retry chain is bounded —
`retryCount` after `n` container-missing calls is `min n MAX_RETRIES`, and
such a call schedules another attempt (with backoff delay
`min (50 * (retryCount + 1)) 500`) exactly while fewer than `MAX_RETRIES`
retries have happened, after which it gives up silently; the typewriter
`startTypewriterAnimation` chain, however, schedules a retry on every
element-missing call (`n` retries after `n` calls, at a fixed 100 ms
delay), without any bound. -/
theorem C3_amended_retry_chains (n : Nat) :
    flIter n = min n MAX_RETRIES
    ∧ flRetrySched (flIter n) = decide (n < MAX_RETRIES)
    ∧ flRetrySched MAX_RETRIES = false
    ∧ (twNotFoundIter n).retriesScheduled = n
    ∧ twEnabled (twNotFoundIter n) .startNotFound = true
    ∧ twRetryDelay = 100 := by
  refine ⟨flIter_eq_min n, ?_, by decide, twNotFoundIter_retries n, rfl, rfl⟩
  rw [flIter_eq_min]
  simp only [flRetrySched, MAX_RETRIES]
  rw [decide_eq_decide]
  omega

/-! ### Cleanup and stop (claim C4) -/

/-- The typewriter trace: start, type all nine characters, let the tick
that finishes typing schedule the pause timeout, then call
`stopTypewriterAnimation`. -/
def c4TraceStop : List TWEvent :=
  TWEvent.startFound :: (List.replicate 10 TWEvent.tick ++ [TWEvent.stop])

/-- The same trace continued: the pause timeout that survived the stop
fires and the new interval ticks once. -/
def c4TraceAfter : List TWEvent :=
  c4TraceStop ++ [TWEvent.pauseTypeFire, TWEvent.tick]

/-- C4 counterexample: cleanup and stop leave timers behind.  A resize
event followed by the flowing-light `cleanup` leaves the debounced-resize
timeout pending; stopping the typewriter right after typing finishes leaves
the pause timeout pending, and when it later fires the typewriter deletes a
character, mutating the displayed text after the stop with no restart. -/
theorem C4_counterexample_leaked_timers :
    (flRunSeq flRunInit [FLEvent.resizeEvt, FLEvent.cleanupCall]).debouncePending = true
    ∧ (twRun twInit c4TraceStop).isSome = true
    ∧ ((twRun twInit c4TraceStop).getD twInit).pendingPauseType = 1
    ∧ (twRun twInit c4TraceAfter).isSome = true
    ∧ ((twRun twInit c4TraceAfter).getD twInit).displayed ≠ targetText := by
  decide

/-- C4 amended: the flowing-light `cleanup` does cancel the scheduled
animation frame, detach the resize and mousemove listeners, stop the loop
and remove the canvas, and `stopTypewriterAnimation` does clear the
interval stored in `typewriterInterval`; but neither clears pending
timeouts: the debounce timeout and the pause timeouts survive. -/
theorem C4_amended_cleanup_effect (s : FLRun) (t : TWState) :
    (flCleanup s).running = false
    ∧ (flCleanup s).rafPending = false
    ∧ (flCleanup s).resizeListener = false
    ∧ (flCleanup s).mouseListener = false
    ∧ (flCleanup s).canvasAttached = false
    ∧ (flCleanup s).debouncePending = s.debouncePending
    ∧ (twStep t .stop).handle = false
    ∧ (twStep t .stop).liveIntervals = t.liveIntervals - cond t.handle 1 0
    ∧ (twStep t .stop).pendingPauseType = t.pendingPauseType
    ∧ (twStep t .stop).pendingPauseDelete = t.pendingPauseDelete := by
  refine ⟨rfl, rfl, rfl, rfl, rfl, rfl, ?_, ?_, ?_, ?_⟩ <;>
    · rw [twStep, clearHandle]
      cases h : t.handle <;> simp [h]

/-! ### Stopping restores the full text (claim C10) -/

/-- C10: whenever `stopTypewriterAnimation` runs after the typewriter
element has been found, the element's displayed text becomes the complete
target string `TYPEWRITER_CONFIG.text`, regardless of the partial string
that was showing. -/
theorem C10_stop_shows_full_text (s : TWState) (h : s.elementFound = true) :
    (twStep s .stop).displayed = targetText := by
  rw [twStep, clearHandle]
  cases hh : s.handle <;> simp [h]

/-- A concrete typewriter state: element found, two characters showing. -/
def c10State : TWState :=
  { twInit with elementFound := true, currentText := targetText.take 2
                displayed := targetText.take 2 }

/-- Witness for C10 at a concrete state: element found, two characters
showing; after the stop the element shows the whole target text. -/
theorem C10_stop_shows_full_text_witness :
    (twStep c10State TWEvent.stop).displayed = targetText :=
  C10_stop_shows_full_text c10State rfl

/-! ### Mutation observers (claim C8) -/

/-- C8: whenever a `childList` mutation adds an element node that is the
flowing-light container or contains it, the container observer callback
invokes both `startAnimation` and `startTypewriterAnimation`; and whenever
the observed URL differs from the last recorded one, the URL observer
records the new URL and invokes both start functions. -/
theorem C8_observers_restart_both (ms : List Mutation) (m : Mutation)
    (n : DomNode) (lastUrl url : String)
    (hm : m ∈ ms) (ht : m.typeChildList = true) (hn : n ∈ m.addedNodes)
    (he : n.isElement = true)
    (hmatch : n.nodeId = "flowing-light-container" ∨ n.containsContainer = true)
    (hu : url ≠ lastUrl) :
    containerObserverRun ms
      = { startAnimationInvoked := true, startTypewriterInvoked := true }
    ∧ urlObserverRun lastUrl url
      = (url, { startAnimationInvoked := true, startTypewriterInvoked := true }) := by
  constructor
  · have hnode : nodeMatches n = true := by
      rw [nodeMatches, he]
      rcases hmatch with h | h <;> simp [h]
    have htrig : mutationTriggers m = true := by
      rw [mutationTriggers, ht]
      simp only [Bool.true_and, List.any_eq_true]
      exact ⟨n, hn, hnode⟩
    have hany : ms.any mutationTriggers = true :=
      List.any_eq_true.mpr ⟨m, hm, htrig⟩
    rw [containerObserverRun, hany]
  · rw [urlObserverRun, if_pos hu]

/-- The container element itself, as an added node. -/
def c8Node : DomNode :=
  { isElement := true, nodeId := "flowing-light-container", containsContainer := false }

/-- A childList mutation adding the container element. -/
def c8Mutation : Mutation := { typeChildList := true, addedNodes := [c8Node] }

/-- Witness for C8: a single childList mutation adding the container
element itself, with a changed URL. -/
theorem C8_observers_restart_both_witness :
    containerObserverRun [c8Mutation]
      = { startAnimationInvoked := true, startTypewriterInvoked := true }
    ∧ urlObserverRun "https://docs.example/a" "https://docs.example/b"
      = ("https://docs.example/b",
         { startAnimationInvoked := true, startTypewriterInvoked := true }) :=
  C8_observers_restart_both [c8Mutation] c8Mutation c8Node
    "https://docs.example/a" "https://docs.example/b"
    (by decide) rfl (by decide) rfl (Or.inl rfl) (by decide)

/-! ### Typewriter invariants (claims C1, C9) -/

theorem take_append_getD (l : List Char) (i : Nat) (d : Char) (h : i < l.length) :
    l.take i ++ [l.getD i d] = l.take (i + 1) := by
  induction l generalizing i with
  | nil => simp at h
  | cons a t ih =>
    cases i with
    | zero => simp
    | succ n =>
      rw [List.take_succ_cons, List.getD_cons_succ, List.cons_append,
          List.take_succ_cons, ih n (Nat.lt_of_succ_lt_succ (by simpa using h))]

/-- The inductive invariant of the typewriter under `startTypewriterAnimation`
calls and `typewriterTick` firings: the machine never enters the deleting
phase, the current text is the prefix of the target of length
`currentIndex`, and `currentIndex` never exceeds the target length. -/
def twInvR (s : TWState) : Prop :=
  s.isDeleting = false
  ∧ s.currentText = targetText.take s.currentIndex
  ∧ s.currentIndex ≤ targetText.length

theorem twInvR_step {s : TWState} {e : TWEvent} (h : twInvR s)
    (hok : claimOk s e = true) : twInvR (twStep s e) := by
  obtain ⟨hd, ht, hi⟩ := h
  cases e
  case startFound =>
    simp only [twStep]
    split_ifs with hh
    · exact ⟨hd, ht, hi⟩
    · exact ⟨rfl, rfl, Nat.zero_le _⟩
  case startNotFound => exact ⟨hd, ht, hi⟩
  case tick =>
    by_cases hty : s.isTyping = true
    · by_cases hlt : s.currentIndex < targetText.length
      · simp only [twStep, if_pos hty, if_pos hlt]
        refine ⟨hd, ?_, ?_⟩
        · show s.currentText ++ [targetText.getD s.currentIndex ' ']
              = targetText.take (s.currentIndex + 1)
          rw [ht]
          exact take_append_getD _ _ _ hlt
        · show s.currentIndex + 1 ≤ targetText.length
          omega
      · simp only [twStep, if_pos hty, if_neg hlt, clearHandle]
        split_ifs with hh
        · exact ⟨hd, ht, hi⟩
        · exact ⟨hd, ht, hi⟩
    · have hdel : ¬(s.isDeleting = true) := by rw [hd]; simp
      simp only [twStep, if_neg hty, if_neg hdel]
      exact ⟨hd, ht, hi⟩
  case pauseTypeFire => simp [claimOk] at hok
  case pauseDeleteFire => simp [claimOk] at hok
  case stop => simp [claimOk] at hok

theorem twInvR_reach {s : TWState} (h : TWReach claimOk s) : twInvR s := by
  induction h with
  | init => exact ⟨rfl, rfl, Nat.zero_le _⟩
  | step e hr hok hen ih => exact twInvR_step ih hok

/-- C1: in every state reachable by `startTypewriterAnimation` calls and
`typewriterTick` firings, the displayed string `currentText` has length at
least 0 and at most the length of the target text
`TYPEWRITER_CONFIG.text`. -/
theorem C1_display_length_bounds (s : TWState) (h : TWReach claimOk s) :
    0 ≤ s.currentText.length ∧ s.currentText.length ≤ targetText.length := by
  obtain ⟨-, ht, -⟩ := twInvR_reach h
  refine ⟨Nat.zero_le _, ?_⟩
  rw [ht, List.length_take]
  exact min_le_right _ _

/-- Witness for C1: the state reached by a successful start and one tick. -/
theorem C1_display_length_bounds_witness :
    0 ≤ (twStep (twStep twInit TWEvent.startFound) TWEvent.tick).currentText.length
    ∧ (twStep (twStep twInit TWEvent.startFound) TWEvent.tick).currentText.length
        ≤ targetText.length :=
  C1_display_length_bounds _
    (TWReach.step TWEvent.tick
      (TWReach.step TWEvent.startFound TWReach.init (by decide) (by decide))
      (by decide) (by decide))

/-- C9: in every state reachable by `startTypewriterAnimation` calls and
`typewriterTick` firings, `currentText` is a prefix of the target string
`TYPEWRITER_CONFIG.text`: typing appends exactly the character at
`currentIndex`, so the displayed text is never a non-prefix string. -/
theorem C9_display_is_target_prefix (s : TWState) (h : TWReach claimOk s) :
    s.currentText <+: targetText := by
  obtain ⟨-, ht, -⟩ := twInvR_reach h
  exact ⟨targetText.drop s.currentIndex, by rw [ht]; exact List.take_append_drop _ _⟩

/-- Witness for C9: the state reached by a successful start and two ticks. -/
theorem C9_display_is_target_prefix_witness :
    (twStep (twStep (twStep twInit TWEvent.startFound) TWEvent.tick)
        TWEvent.tick).currentText <+: targetText :=
  C9_display_is_target_prefix _
    (TWReach.step TWEvent.tick
      (TWReach.step TWEvent.tick
        (TWReach.step TWEvent.startFound TWReach.init (by decide) (by decide))
        (by decide) (by decide))
      (by decide) (by decide))

/-! ### Timer uniqueness (claim C2) -/

/-- The trace refuting C2: start, type the nine characters, let the tenth
tick schedule the pause timeout, start again during the pause window (the
guard sees `typewriterInterval == null` and creates a fresh interval), then
let the pause timeout fire (it overwrites the handle with yet another
interval, leaking the first). -/
def c2Trace : List TWEvent :=
  TWEvent.startFound ::
    (List.replicate 10 TWEvent.tick ++ [TWEvent.startFound, TWEvent.pauseTypeFire])

/-- The state at the end of `c2Trace`. -/
def c2State : TWState := (twRun twInit c2Trace).getD twInit

/-- C2 counterexample: the state reached by `c2Trace` (every step of which
is an enabled event of the full system) has two live interval timers, so
two timer chains mutate the text concurrently. -/
theorem C2_counterexample_two_live_intervals :
    TWReach fullOk c2State ∧ 2 ≤ c2State.liveIntervals :=
  ⟨twRun_reach c2Trace TWReach.init (by decide), by decide⟩

/-- The inductive invariant for the amended C2: the interval count matches
the stored handle, and at most one timer resource (live interval or pending
pause timeout) exists at a time. -/
def twTimerInv (s : TWState) : Prop :=
  s.liveIntervals = cond s.handle 1 0
  ∧ s.liveIntervals + s.pendingPauseType + s.pendingPauseDelete ≤ 1

theorem twTimerInv_step {s : TWState} {e : TWEvent} (h : twTimerInv s)
    (hok : safeOk s e = true) (hen : twEnabled s e = true) :
    twTimerInv (twStep s e) := by
  obtain ⟨li, hd, ef, ity, idel, ct, ci, pt, pd, disp, rs⟩ := s
  obtain ⟨h1, h2⟩ := h
  simp only [twTimerInv] at *
  cases e <;> cases hd <;> cases ity <;> cases idel <;>
    simp only [twStep, twEnabled, safeOk, clearHandle, loopFlag,
      Bool.cond_false, Bool.cond_true, Bool.and_eq_true, decide_eq_true_eq] at * <;>
    (try split_ifs at *) <;> (try simp_all) <;> omega

theorem twTimerInv_reach {s : TWState} (h : TWReach safeOk s) : twTimerInv s := by
  induction h with
  | init => exact ⟨rfl, Nat.zero_le _⟩
  | step e hr hok hen ih => exact twTimerInv_step ih hok hen

/-- C2 amended: starting the animation while the interval is running is a
no-op (only `typewriterElement` is reassigned), and at most one interval
timer is live in any execution in which `startTypewriterAnimation` is never
invoked while a pause timeout is pending; without that proviso a start
during the pause window followed by the pause callback leaves two live
interval timers (see the counterexample). -/
theorem C2_amended_interval_uniqueness (s t : TWState)
    (hs : TWReach safeOk s) (ht : t.handle = true) :
    s.liveIntervals ≤ 1
    ∧ twStep t TWEvent.startFound = { t with elementFound := true } := by
  constructor
  · obtain ⟨h1, h2⟩ := twTimerInv_reach hs
    omega
  · simp only [twStep]
    rw [if_pos ht]

/-- Witness for the amended C2: a concrete reachable state (start then one
tick) has at most one live interval, and a start on a state whose handle is
set only reassigns the element. -/
theorem C2_amended_interval_uniqueness_witness :
    (twStep (twStep twInit TWEvent.startFound) TWEvent.tick).liveIntervals ≤ 1
    ∧ twStep { twInit with handle := true } TWEvent.startFound
        = { twInit with handle := true, elementFound := true } :=
  C2_amended_interval_uniqueness _ { twInit with handle := true }
    (TWReach.step TWEvent.tick
      (TWReach.step TWEvent.startFound TWReach.init (by decide) (by decide))
      (by decide) (by decide))
    rfl

/-! ### Per-dot opacity bounds (claim C6) -/

theorem sin_wave_bounds (x : ℝ) :
    0 ≤ Real.sin x * 0.5 + 0.5 ∧ Real.sin x * 0.5 + 0.5 ≤ 1 := by
  have h1 := Real.neg_one_le_sin x
  have h2 := Real.sin_le_one x
  constructor <;> nlinarith

/-- C6: for every elapsed time and cursor offset, the brightness computed
per dot in `tick` is the mean of three phase-shifted sine waves, each
mapped into [0, 1], plus a nonnegative proximity boost
`max 0 (1 - dist / PROX_RADIUS) * 0.4`, the sum clamped to at most 1; the
painted opacity equals `OPACITY_BASE + finalIntensity * OPACITY_SCALE` and
always lies in [0.02, 0.52]. -/
theorem C6_opacity_formula_and_bounds (time dx dy : ℝ) :
    intensity time (cursorDist dx dy)
      = (wave1 time (cursorDist dx dy) + wave2 time (cursorDist dx dy)
         + wave3 time (cursorDist dx dy)) / 3
    ∧ (0 ≤ wave1 time (cursorDist dx dy) ∧ wave1 time (cursorDist dx dy) ≤ 1)
    ∧ (0 ≤ wave2 time (cursorDist dx dy) ∧ wave2 time (cursorDist dx dy) ≤ 1)
    ∧ (0 ≤ wave3 time (cursorDist dx dy) ∧ wave3 time (cursorDist dx dy) ≤ 1)
    ∧ proxBoost (cursorDist dx dy)
        = max 0 (1 - cursorDist dx dy / PROX_RADIUS) * 0.4
    ∧ 0 ≤ proxBoost (cursorDist dx dy)
    ∧ finalIntensity time (cursorDist dx dy)
        = min 1 (intensity time (cursorDist dx dy) + proxBoost (cursorDist dx dy))
    ∧ 0 ≤ finalIntensity time (cursorDist dx dy)
    ∧ finalIntensity time (cursorDist dx dy) ≤ 1
    ∧ dotOpacity time (cursorDist dx dy)
        = OPACITY_BASE + finalIntensity time (cursorDist dx dy) * OPACITY_SCALE
    ∧ 0.02 ≤ dotOpacity time (cursorDist dx dy)
    ∧ dotOpacity time (cursorDist dx dy) ≤ 0.52 := by
  set d := cursorDist dx dy with hdd
  have hw1 : 0 ≤ wave1 time d ∧ wave1 time d ≤ 1 :=
    sin_wave_bounds (time * 0.8 - d * 0.005)
  have hw2 : 0 ≤ wave2 time d ∧ wave2 time d ≤ 1 :=
    sin_wave_bounds (time * 0.6 - d * 0.004 + Real.pi / 3)
  have hw3 : 0 ≤ wave3 time d ∧ wave3 time d ≤ 1 :=
    sin_wave_bounds (time * 0.7 - d * 0.006 + Real.pi / 6)
  have hb : 0 ≤ proxBoost d := by
    have hmax : (0:ℝ) ≤ max 0 (1 - d * proxInv) := le_max_left 0 _
    simp only [proxBoost]
    nlinarith
  have hint : 0 ≤ intensity time d := by
    simp only [intensity]
    linarith [hw1.1, hw2.1, hw3.1]
  have hfin_le : finalIntensity time d ≤ 1 := min_le_left _ _
  have hfin_ge : 0 ≤ finalIntensity time d := by
    simp only [finalIntensity]
    exact le_min (by norm_num) (by linarith)
  refine ⟨rfl, hw1, hw2, hw3, ?_, hb, rfl, hfin_ge, hfin_le, rfl, ?_, ?_⟩
  · simp only [proxBoost, proxInv]
    have hdiv : d * (1 / PROX_RADIUS) = d / PROX_RADIUS := by ring
    rw [hdiv]
  · simp only [dotOpacity, OPACITY_BASE, OPACITY_SCALE]
    nlinarith
  · simp only [dotOpacity, OPACITY_BASE, OPACITY_SCALE]
    nlinarith

end Hifi
